import Mathlib

/-!
Shallow embedding of the image-compositing pipeline of `src/main.rs`
(the `imtrand` service): mime-type dispatch, per-layer decoding
(raster or SVG rasterization), size normalization via
`DynamicImage::resize`, the ordered `try_fold` over overlay layers, and the
final JPEG encoding.

External library calls (the `image` crate's decoders, `usvg`/`resvg`/
`tiny_skia`, the JPEG encoder, the per-pixel alpha blend and the
nearest-neighbor resampler) are modelled as fields of an environment
structure `Env`: they are dependency code, not code of this repository.
The control flow, dispatch, error mapping and geometry that *are* this
repository's code are embedded concretely below.  Machine floats appearing
in dependency geometry (`resize_dimensions` of the `image` crate) are
modelled over `ℚ`; all concrete inputs used in counterexamples are chosen so
that the `f64` computation is exact and agrees with `ℚ`.
-/

/-- A byte string (`Bytes` / `Vec<u8>`), bytes as naturals. -/
abbrev ByteSeq := List Nat

/-- One RGBA pixel, channels as `u8` values. -/
structure Pix where
  r : Nat
  g : Nat
  b : Nat
  a : Nat
deriving DecidableEq, Repr

/-- An in-memory pixel buffer (`DynamicImage`): width, height and row-major
pixels. -/
structure Image where
  width : Nat
  height : Nat
  pixels : List Pix
deriving DecidableEq, Repr

/-- Payload token for the `image` crate's `ImageError` (its contents are
never inspected by `main.rs`, only carried inside `DecodingFailure`). -/
structure ImageError where
  code : Nat
deriving DecidableEq, Repr

/-- Payload token for the png `EncodingError` carried by the (dead)
`RenderFailure` variant. -/
structure EncodingError where
  code : Nat
deriving DecidableEq, Repr

/-- The error enum `AppError` of `main.rs` (lines 36-44). -/
inductive AppError where
  | MissingMimeType
  | InvalidMimeType (s : String)
  | DecodingFailure (e : ImageError)
  | EncodingFailure
  | SvgParserFailure
  | InvalidSize
  | RenderFailure (e : EncodingError)
deriving DecidableEq, Repr

/-- Outcome of running a fallible piece of the pipeline.  `panic` models a
Rust panic (e.g. `Option::unwrap` on `None`), which is distinct from
returning a typed `AppError`. -/
inductive PResult (α : Type) where
  | panic : PResult α
  | err : AppError → PResult α
  | ok : α → PResult α
deriving DecidableEq, Repr

/-- `FieldData<Bytes>`: one multipart part, its raw bytes plus the declared
`Content-Type` of its metadata (which may be absent). -/
structure FieldData where
  contents : ByteSeq
  contentType : Option String
deriving DecidableEq, Repr

/-- The multipart request: one base image part and an ordered list of
overlay layer parts. -/
structure TransformRequest where
  image : FieldData
  layers : List FieldData
deriving DecidableEq, Repr

/-- The successful response: the `Content-Type` header value and the body
bytes. -/
structure Response where
  contentType : String
  body : ByteSeq
deriving DecidableEq, Repr

/-- The raster formats known to `image::ImageFormat`. -/
inductive ImageFormat where
  | png | jpeg | gif | webp | pnm | tiff | tga | dds | bmp | ico | hdr
  | openexr | avif | qoi
deriving DecidableEq, Repr

/-- `image::ImageFormat::from_mime_type`: the raster mime-type table of the
`image` crate.  Note that `"image/svg+xml"` is not in the table. -/
def ImageFormat.fromMimeType (m : String) : Option ImageFormat :=
  if m = "image/avif" then some .avif
  else if m = "image/jpeg" then some .jpeg
  else if m = "image/png" then some .png
  else if m = "image/gif" then some .gif
  else if m = "image/webp" then some .webp
  else if m = "image/tiff" then some .tiff
  else if m = "image/x-targa" ∨ m = "image/x-tga" then some .tga
  else if m = "image/vnd-ms.dds" then some .dds
  else if m = "image/bmp" then some .bmp
  else if m = "image/x-icon" ∨ m = "image/vnd.microsoft.icon" then some .ico
  else if m = "image/vnd.radiance" then some .hdr
  else if m = "image/x-exr" then some .openexr
  else if m = "image/x-portable-bitmap" ∨ m = "image/x-portable-graymap"
    ∨ m = "image/x-portable-pixmap" ∨ m = "image/x-portable-anymap" then some .pnm
  else if m = "image/x-qoi" ∨ m = "image/qoi" then some .qoi
  else none

/-- `tiny_skia::IntSize`: an integer size whose width and height are
guaranteed positive by construction (`from_wh` refuses zeros, and
`usvg::Size::to_int_size` rounds with a lower bound of 1). -/
structure IntSize where
  w : Nat
  h : Nat
  w_pos : 0 < w
  h_pos : 0 < h

/-- `tiny_skia::IntSize::from_wh`: `None` when either dimension is zero. -/
def IntSize.fromWh (w h : Nat) : Option IntSize :=
  if hw : 0 < w then
    if hh : 0 < h then some ⟨w, h, hw, hh⟩ else none
  else none

/-- A parsed SVG document (`usvg::Tree`), reduced to what `main.rs` reads
from it: `tree.size().to_int_size()`, which is positive by the `usvg` type
invariants (`Size` is positive, `to_int_size` rounds with minimum 1). -/
structure SvgTree where
  size : IntSize

/-- A `tiny_skia::Pixmap` render target (its pixel contents stay inside the
abstracted renderer and png encoder). -/
structure Pixmap where
  width : Nat
  height : Nat
deriving DecidableEq, Repr

/-- `tiny_skia::Pixmap::new`: `None` when either dimension is zero (the
documented failure mode exercised by `main.rs`'s `ok_or(InvalidSize)`). -/
def Pixmap.new (w h : Nat) : Option Pixmap :=
  if w = 0 ∨ h = 0 then none else some ⟨w, h⟩

/-- `tiny_skia::Transform::from_scale`: a pair of scale factors (`f32` in
the source, modelled over `ℚ`). -/
structure Transform where
  sx : ℚ
  sy : ℚ

/-- The external library functions the pipeline calls, abstracted: they are
dependency code (the `image` crate, `usvg`, `resvg`, `tiny_skia`), not code
of this repository.  Each is a pure function, matching the fact that none
of these calls has hidden inputs or retained state in the source. -/
structure Env where
  /-- `ImageReader::with set_format(fmt) |>.decode()` on raw bytes. -/
  decode : ImageFormat → ByteSeq → Except ImageError Image
  /-- `usvg::Tree::from_data` (with the default options and system fonts). -/
  svgParse : ByteSeq → Except Unit SvgTree
  /-- `resvg::render` into a pixmap (total: no failure path). -/
  render : SvgTree → Transform → Pixmap → Pixmap
  /-- `tiny_skia::Pixmap::encode_png`. -/
  pngEncode : Pixmap → Except Unit ByteSeq
  /-- `JpegEncoder::new(&mut buf)` + `write_with_encoder` at the fixed
  default quality: the produced bytes as a function of the canvas. -/
  jpegEncode : Image → Except Unit ByteSeq
  /-- `image::Rgba::blend`: per-pixel source-over alpha compositing
  (`f32` internals abstracted; `blend bottom top` draws `top` over
  `bottom`). -/
  blend : Pix → Pix → Pix
  /-- The pixel resampling of `imageops::resize` with `FilterType::Nearest`
  at an already-computed target size (`f32` sampling abstracted; the target
  dimensions themselves are computed concretely by `resizeDimensions`). -/
  resample : Image → Nat → Nat → List Pix
  /-- `tiny_skia::IntSize::scale_to`: aspect-preserving fit of a size
  toward a target size; positivity is preserved by the `IntSize` type. -/
  scaleTo : IntSize → IntSize → IntSize

/-- `u32::MAX`. -/
def u32Max : Nat := 4294967295

/-- Round-half-up of the exact rational `a / b` (`b > 0`), in integers.
`f64::round` is round-half-away-from-zero, which on the nonnegative values
appearing in `resize_dimensions` is round-half-up: `round (a / b)` is
`⌊(2 a + b) / (2 b)⌋`. -/
def roundDiv (a b : Nat) : Nat := (2 * a + b) / (2 * b)

/-- `image`'s `resize_dimensions(width, height, nwidth, nheight, false)`:
the aspect-ratio-preserving target size used by `DynamicImage::resize`.
The source computes `ratio = min(nwidth/width, nheight/height)` and rounds
`width * ratio` and `height * ratio` in `f64`; this is modelled in exact
rational arithmetic: `nwidth/width ≤ nheight/height` as
`nwidth * height ≤ nheight * width` and each rounded product via
`roundDiv`.  The result is `max`ed with 1 per component and clamped at
`u32::MAX` exactly as in the source. -/
def resizeDimensions (width height nwidth nheight : Nat) : Nat × Nat :=
  let nw : Nat :=
    max (if nwidth * height ≤ nheight * width then roundDiv (width * nwidth) width
         else roundDiv (width * nheight) height) 1
  let nh : Nat :=
    max (if nwidth * height ≤ nheight * width then roundDiv (height * nwidth) width
         else roundDiv (height * nheight) height) 1
  if u32Max < nw then
    (u32Max, max (roundDiv (height * u32Max) width) 1)
  else if u32Max < nh then
    (max (roundDiv (width * u32Max) height) 1, u32Max)
  else (nw, nh)

/-- `DynamicImage::resize(nwidth, nheight, FilterType::Nearest)`: returns
the image unchanged when the target equals the current dimensions,
otherwise resamples at the aspect-preserving `resize_dimensions` size.
This is the normalization step of `prepare_layers` (lines 149 and 162). -/
def resizeD (env : Env) (img : Image) (nwidth nheight : Nat) : Image :=
  if (nwidth, nheight) = (img.width, img.height) then img
  else
    let d := resizeDimensions img.width img.height nwidth nheight
    { width := d.1, height := d.2, pixels := env.resample img d.1 d.2 }

/-- Pixel lookup in a row-major buffer (out-of-range reads default; the
source never performs them). -/
def Image.get (img : Image) (x y : Nat) : Pix :=
  img.pixels.getD (y * img.width + x) ⟨0, 0, 0, 0⟩

/-- `imageops::overlay(bottom, top, 0, 0)`: draws `top` over `bottom` at
the origin; only the overlap region (top-left `min` rectangle) is blended,
each pixel with the source-over `blend`. -/
def overlayAt0 (env : Env) (bottom top : Image) : Image :=
  let rw := min bottom.width top.width
  let rh := min bottom.height top.height
  { width := bottom.width
    height := bottom.height
    pixels := (List.range (bottom.width * bottom.height)).map fun i =>
      let x := i % bottom.width
      let y := i / bottom.width
      if x < rw ∧ y < rh then env.blend (bottom.get x y) (top.get x y)
      else bottom.get x y }

/-- `prepare_layers(image_witdh, image_height)` applied to one layer
(lines 115-166 of `main.rs`).  Line 120 of the source unwraps the layer's
content type before anything else, so an absent content type is a panic,
not a typed error; the later `ok_or(AppError::MissingMimeType)` on the
raster branch re-reads the same `Option` and therefore never fires. -/
def prepare_layers (env : Env) (image_witdh image_height : Nat)
    (layer : FieldData) : PResult Image :=
  match layer.contentType with
  | none => .panic
  | some ct =>
    if ct = "image/svg+xml" then
      match env.svgParse layer.contents with
      | .error _ => .err .SvgParserFailure
      | .ok tree =>
        let original_size := tree.size
        match IntSize.fromWh image_witdh image_height with
        | none => .err .InvalidSize
        | some target =>
          let pixmap_size := env.scaleTo original_size target
          match Pixmap.new pixmap_size.w pixmap_size.h with
          | none => .err .InvalidSize
          | some pixmap =>
            let transfrom : Transform :=
              ⟨(image_witdh : ℚ) / (original_size.w : ℚ),
               (image_height : ℚ) / (original_size.h : ℚ)⟩
            let rendered := env.render tree transfrom pixmap
            match env.pngEncode rendered with
            | .error _ => .err .EncodingFailure
            | .ok rgba =>
              match env.decode .png rgba with
              | .error e => .err (.DecodingFailure e)
              | .ok overlay_image =>
                .ok (resizeD env overlay_image image_witdh image_height)
    else
      match ImageFormat.fromMimeType ct with
      | none => .err (.InvalidMimeType ct)
      | some fmt =>
        match env.decode fmt layer.contents with
        | .error e => .err (.DecodingFailure e)
        | .ok overlay_image =>
          .ok (resizeD env overlay_image image_witdh image_height)

/-- The `try_fold` of `create_document` (lines 183-190): layers are mapped
through `prepare_layers` lazily, one at a time in input order; the closure
overlays each prepared layer onto the accumulator at `(0, 0)` and the fold
stops at the first error (or panic). -/
def composeFold (env : Env) (w h : Nat) (acc : Image) :
    List FieldData → PResult Image
  | [] => .ok acc
  | l :: ls =>
    match prepare_layers env w h l with
    | .panic => .panic
    | .err e => .err e
    | .ok layer => composeFold env w h (overlayAt0 env acc layer) ls

/-- All layers of a list prepared in order (`mapM`-style): `.ok ps` exactly
when every layer decodes and normalizes, in which case `ps` lists the
prepared images in input order. -/
def preparedAll (env : Env) (w h : Nat) : List FieldData → PResult (List Image)
  | [] => .ok []
  | l :: ls =>
    match prepare_layers env w h l with
    | .panic => .panic
    | .err e => .err e
    | .ok i =>
      match preparedAll env w h ls with
      | .panic => .panic
      | .err e => .err e
      | .ok is => .ok (i :: is)

/-- The handler `create_document` (lines 168-201): resolve the base mime
type against the raster table, decode the base, fold the layers over a
clone of it, JPEG-encode the final canvas and answer with
`Content-Type: image/jpeg`. -/
def create_document (env : Env) (payload : TransformRequest) :
    PResult Response :=
  match payload.image.contentType with
  | none => .err .MissingMimeType
  | some ct =>
    match ImageFormat.fromMimeType ct with
    | none => .err (.InvalidMimeType ct)
    | some fmt =>
      match env.decode fmt payload.image.contents with
      | .error e => .err (.DecodingFailure e)
      | .ok image =>
        match composeFold env image.width image.height image payload.layers with
        | .panic => .panic
        | .err e => .err e
        | .ok canvas =>
          match env.jpegEncode canvas with
          | .error _ => .err .EncodingFailure
          | .ok bytes => .ok ⟨"image/jpeg", bytes⟩

/-- The decode strategy the dispatch of `prepare_layers` selects, as a
function of the layer alone: the branch on line 120 compares the unwrapped
declared content type against the literal `"image/svg+xml"`, otherwise the
raster table is consulted.  No byte of the payload is inspected. -/
inductive Strategy where
  | vector
  | raster (fmt : ImageFormat)
deriving DecidableEq, Repr

/-- The dispatch of `prepare_layers`, isolated: panics on an absent content
type (the line-120 unwrap), routes `"image/svg+xml"` to the vector path and
everything else through `ImageFormat::from_mime_type`. -/
def layerStrategy (layer : FieldData) : PResult Strategy :=
  match layer.contentType with
  | none => .panic
  | some ct =>
    if ct = "image/svg+xml" then .ok .vector
    else
      match ImageFormat.fromMimeType ct with
      | none => .err (.InvalidMimeType ct)
      | some fmt => .ok (.raster fmt)

/-- The dimensions of an accepted result. -/
def PResult.dims : PResult Image → Option (Nat × Nat)
  | .ok i => some (i.width, i.height)
  | _ => none

/-- The constant all-transparent pixel used as resampler output in the
concrete environments below. -/
def pix0 : Pix := ⟨0, 0, 0, 0⟩

/-- A concrete 2×2 opaque image. -/
def imgOk2 : Image := ⟨2, 2, List.replicate 4 ⟨1, 2, 3, 255⟩⟩

/-- A concrete 50×25 image: same width class but half the canvas aspect
ratio of a 100×100 canvas. -/
def img5025 : Image := ⟨50, 25, List.replicate 1250 ⟨9, 9, 9, 255⟩⟩

/-- The 100×50 buffer `DynamicImage::resize` produces from `img5025`
toward a 100×100 target (aspect-preserving fit, resampled pixels from the
environment's nearest-neighbor sampler). -/
def imgWide : Image := ⟨100, 50, []⟩

/-- A parsed SVG document with intrinsic integer size 1×1. -/
def treeOne : SvgTree := ⟨⟨1, 1, Nat.one_pos, Nat.one_pos⟩⟩

/-- A concrete decoder error payload. -/
def errC : ImageError := ⟨7⟩

/-- A concrete environment in which every decode yields `imgOk2`, SVG
parsing fails, and JPEG encoding records the canvas dimensions. -/
def envOk : Env where
  decode := fun _ _ => .ok imgOk2
  svgParse := fun _ => .error ()
  render := fun _ _ p => p
  pngEncode := fun _ => .ok []
  jpegEncode := fun i => .ok [i.width, i.height]
  blend := fun _ t => t
  resample := fun _ _ _ => []
  scaleTo := fun s _ => s

/-- `envOk` with a decoder that always fails with `errC`. -/
def envDecFail : Env := { envOk with decode := fun _ _ => .error errC }

/-- `envOk` with a decoder producing the 50×25 image `img5025`. -/
def envC1 : Env := { envOk with decode := fun _ _ => .ok img5025 }

/-- `envOk` with an SVG front end that accepts every input as `treeOne`. -/
def envSvgTree : Env := { envOk with svgParse := fun _ => .ok treeOne }

/-- A layer/payload declared `image/png` with empty contents. -/
def layerPng : FieldData := ⟨[], some "image/png"⟩

/-- A layer declared `image/svg+xml` with empty contents. -/
def layerSvg : FieldData := ⟨[], some "image/svg+xml"⟩

/-- The raster mime table of the `image` crate does not know
`image/svg+xml`. -/
theorem fromMimeType_svg : ImageFormat.fromMimeType "image/svg+xml" = none := rfl

/-- `IntSize::from_wh` rejects a zero dimension. -/
theorem IntSize.fromWh_eq_none {w h : Nat} (hz : w = 0 ∨ h = 0) :
    IntSize.fromWh w h = none := by
  unfold IntSize.fromWh
  rcases hz with rfl | rfl <;> simp

/-- When every layer of `ls` prepares successfully to `ps`, the `try_fold`
is the plain left-fold of `overlayAt0` over `ps` started at `acc`. -/
theorem composeFold_ok (env : Env) (w h : Nat) :
    ∀ (ls : List FieldData) (ps : List Image) (acc : Image),
      preparedAll env w h ls = .ok ps →
      composeFold env w h acc ls = .ok (ps.foldl (overlayAt0 env) acc) := by
  intro ls
  induction ls with
  | nil =>
    intro ps acc hp
    simp only [preparedAll] at hp
    cases hp
    rfl
  | cons l ls ih =>
    intro ps acc hp
    simp only [preparedAll] at hp
    cases h1 : prepare_layers env w h l with
    | panic => rw [h1] at hp; cases hp
    | err e => rw [h1] at hp; cases hp
    | ok i =>
      rw [h1] at hp
      cases h2 : preparedAll env w h ls with
      | panic => rw [h2] at hp; cases hp
      | err e => rw [h2] at hp; cases hp
      | ok is =>
        rw [h2] at hp
        cases hp
        simp only [composeFold, h1, List.foldl]
        exact ih is (overlayAt0 env acc i) h2

/-- Splitting the `try_fold` at a successfully prepared prefix: the fold
over `ls ++ rest` continues on `rest` from the canvas accumulated over
`ls`. -/
theorem composeFold_append (env : Env) (w h : Nat) :
    ∀ (ls : List FieldData) (ps : List Image) (rest : List FieldData) (acc : Image),
      preparedAll env w h ls = .ok ps →
      composeFold env w h acc (ls ++ rest) =
        composeFold env w h (ps.foldl (overlayAt0 env) acc) rest := by
  intro ls
  induction ls with
  | nil =>
    intro ps rest acc hp
    simp only [preparedAll] at hp
    cases hp
    rfl
  | cons l ls ih =>
    intro ps rest acc hp
    simp only [preparedAll] at hp
    cases h1 : prepare_layers env w h l with
    | panic => rw [h1] at hp; cases hp
    | err e => rw [h1] at hp; cases hp
    | ok i =>
      rw [h1] at hp
      cases h2 : preparedAll env w h ls with
      | panic => rw [h2] at hp; cases hp
      | err e => rw [h2] at hp; cases hp
      | ok is =>
        rw [h2] at hp
        cases hp
        simp only [List.cons_append, composeFold, h1, List.foldl]
        exact ih is rest (overlayAt0 env acc i) h2

/-- Claim C2 (code bug): an overlay layer whose declared content type is
absent does not produce the typed error `MissingMimeType` — line 120 of
`main.rs` calls `Option::unwrap` on the content type before any check, so
the process panics.  The `ok_or(AppError::MissingMimeType)` on line 154
re-reads the same `Option` after the unwrap already succeeded and is dead
code.  The theorem evaluates the layer-preparation code on an arbitrary
layer with no declared content type: the outcome is a panic, for every
environment, canvas size and byte content. -/
theorem missing_mime_type_panics (env : Env) (w h : Nat) (bs : ByteSeq) :
    prepare_layers env w h ⟨bs, none⟩ = .panic := rfl

/-- Claim C10: a request whose base payload declares `image/svg+xml` fails
with `InvalidMimeType "image/svg+xml"`: the base path of `create_document`
(lines 171-181) goes straight to the raster table
`ImageFormat::from_mime_type`, which has no SVG entry — the vector path
exists only inside `prepare_layers` for overlay layers. -/
theorem base_svg_invalid_mime (env : Env) (bs : ByteSeq) (ls : List FieldData) :
    create_document env ⟨⟨bs, some "image/svg+xml"⟩, ls⟩ =
      .err (.InvalidMimeType "image/svg+xml") := rfl

/-- Claim C9: encoding is deterministic.  The source constructs a fresh
`JpegEncoder` over a fresh local buffer with the fixed default quality on
every request and `write_with_encoder` has no input other than the canvas,
so the emitted bytes are a pure function of the final canvas; in the
embedding this is the statement that equal canvases (and equal requests)
yield byte-identical output. -/
theorem encode_deterministic (env : Env) (canvas canvas' : Image)
    (req req' : TransformRequest) (hc : canvas = canvas') (hr : req = req') :
    env.jpegEncode canvas = env.jpegEncode canvas' ∧
      create_document env req = create_document env req' :=
  ⟨by rw [hc], by rw [hr]⟩

/-- Witness for `encode_deterministic` at a concrete canvas and request. -/
theorem encode_deterministic_witness :
    envOk.jpegEncode imgOk2 = envOk.jpegEncode imgOk2 ∧
      create_document envOk ⟨layerPng, []⟩ = create_document envOk ⟨layerPng, []⟩ :=
  encode_deterministic envOk imgOk2 imgOk2 ⟨layerPng, []⟩ ⟨layerPng, []⟩ rfl rfl

/-- Claim C5: with an empty overlay list the fold is the identity on the
canvas, and the request returns exactly the decoded base buffer re-encoded
as JPEG (with the `image/jpeg` content type). -/
theorem empty_layers_base_reencoded (env : Env) (base : FieldData) (ct : String)
    (fmt : ImageFormat) (img : Image) (bs : ByteSeq)
    (hct : base.contentType = some ct)
    (hfmt : ImageFormat.fromMimeType ct = some fmt)
    (hdec : env.decode fmt base.contents = .ok img)
    (henc : env.jpegEncode img = .ok bs) :
    composeFold env img.width img.height img [] = .ok img ∧
      create_document env ⟨base, []⟩ = .ok ⟨"image/jpeg", bs⟩ := by
  refine ⟨rfl, ?_⟩
  simp only [create_document, hct, hfmt, hdec, composeFold, henc]

/-- Witness for `empty_layers_base_reencoded`: the concrete environment
`envOk` decodes the base to the 2×2 image and encodes it to `[2, 2]`. -/
theorem empty_layers_base_reencoded_witness :
    composeFold envOk imgOk2.width imgOk2.height imgOk2 [] = .ok imgOk2 ∧
      create_document envOk ⟨layerPng, []⟩ = .ok ⟨"image/jpeg", [2, 2]⟩ :=
  empty_layers_base_reencoded envOk layerPng "image/png" .png imgOk2 [2, 2]
    rfl rfl rfl rfl

/-- Claim C6: the decode strategy is chosen solely from the declared
content-type string.  (1) A layer declared exactly `image/svg+xml` is
routed to the vector path whatever its bytes are, and when those bytes do
not parse as SVG the result is `SvgParserFailure`; (2) the dispatch
`layerStrategy` is a function of the declared content type alone, never of
the payload bytes; (3) a dispatch error surfaces unchanged from
`prepare_layers`. -/
theorem svg_routing_by_declared_type (env : Env) (w h : Nat) (bs : ByteSeq)
    (hparse : env.svgParse bs = .error ()) :
    prepare_layers env w h ⟨bs, some "image/svg+xml"⟩ = .err .SvgParserFailure ∧
      (∀ l₁ l₂ : FieldData, l₁.contentType = l₂.contentType →
        layerStrategy l₁ = layerStrategy l₂) ∧
      (∀ (env' : Env) (w' h' : Nat) (l : FieldData) (e : AppError),
        layerStrategy l = .err e → prepare_layers env' w' h' l = .err e) := by
  refine ⟨?_, ?_, ?_⟩
  · simp only [prepare_layers, hparse, if_true]
  · intro l₁ l₂ hEq
    unfold layerStrategy
    rw [hEq]
  · intro env' w' h' l e hs
    obtain ⟨bs', octype⟩ := l
    cases octype with
    | none => exact PResult.noConfusion hs
    | some ct =>
      simp only [layerStrategy] at hs
      by_cases hsvg : ct = "image/svg+xml"
      · rw [if_pos hsvg] at hs; cases hs
      · rw [if_neg hsvg] at hs
        cases hfmt : ImageFormat.fromMimeType ct with
        | none =>
          rw [hfmt] at hs
          cases hs
          simp only [prepare_layers]
          rw [if_neg hsvg, hfmt]
        | some fmt => rw [hfmt] at hs; cases hs

/-- Witness for `svg_routing_by_declared_type`: in `envOk` the SVG front
end rejects the empty byte string. -/
theorem svg_routing_by_declared_type_witness :
    prepare_layers envOk 1 1 ⟨[], some "image/svg+xml"⟩ = .err .SvgParserFailure ∧
      (∀ l₁ l₂ : FieldData, l₁.contentType = l₂.contentType →
        layerStrategy l₁ = layerStrategy l₂) ∧
      (∀ (env' : Env) (w' h' : Nat) (l : FieldData) (e : AppError),
        layerStrategy l = .err e → prepare_layers env' w' h' l = .err e) :=
  svg_routing_by_declared_type envOk 1 1 [] rfl

/-- Claim C7: a payload whose declared mime type resolves to a raster codec
but whose bytes that codec rejects yields the typed `DecodingFailure`
carrying the decoder's error — for an overlay layer and for the base
payload alike; no other outcome (panic, other error, or an image) is
possible on that path. -/
theorem raster_mismatch_decoding_failure (env : Env) (w h : Nat)
    (l : FieldData) (ct : String) (fmt : ImageFormat) (e : ImageError)
    (hct : l.contentType = some ct)
    (hfmt : ImageFormat.fromMimeType ct = some fmt)
    (hdec : env.decode fmt l.contents = .error e) :
    prepare_layers env w h l = .err (.DecodingFailure e) ∧
      ∀ ls : List FieldData,
        create_document env ⟨l, ls⟩ = .err (.DecodingFailure e) := by
  have hsvg : ct ≠ "image/svg+xml" := by
    intro hEq
    rw [hEq, fromMimeType_svg] at hfmt
    cases hfmt
  constructor
  · simp only [prepare_layers, hct]
    rw [if_neg hsvg]
    simp only [hfmt, hdec]
  · intro ls
    simp only [create_document, hct, hfmt, hdec]

/-- Witness for `raster_mismatch_decoding_failure`: `envDecFail` rejects
every byte string with the error payload `errC`. -/
theorem raster_mismatch_decoding_failure_witness :
    prepare_layers envDecFail 2 2 layerPng = .err (.DecodingFailure errC) ∧
      ∀ ls : List FieldData,
        create_document envDecFail ⟨layerPng, ls⟩ = .err (.DecodingFailure errC) :=
  raster_mismatch_decoding_failure envDecFail 2 2 layerPng "image/png" .png errC
    rfl rfl rfl

/-- Claim C8: on the vector path, a zero canvas width or height — or a zero
intrinsic SVG dimension, a case the `usvg`/`tiny_skia` size types make
unrepresentable (`tree.size().to_int_size()` is at least 1×1 by
construction, witnessed here by the positivity fields of `IntSize`) — makes
`prepare_layers` fail with `InvalidSize` via `IntSize::from_wh`, before
`resvg::render` is invoked: the conclusion holds for every environment,
whatever its `render` does. -/
theorem vector_zero_size_invalid (env : Env) (w h : Nat) (bs : ByteSeq)
    (tree : SvgTree) (hparse : env.svgParse bs = .ok tree)
    (hz : w = 0 ∨ h = 0 ∨ tree.size.w = 0 ∨ tree.size.h = 0) :
    prepare_layers env w h ⟨bs, some "image/svg+xml"⟩ = .err .InvalidSize := by
  have hz' : w = 0 ∨ h = 0 := by
    rcases hz with h1 | h2 | h3 | h4
    · exact Or.inl h1
    · exact Or.inr h2
    · exact absurd h3 (Nat.pos_iff_ne_zero.mp tree.size.w_pos)
    · exact absurd h4 (Nat.pos_iff_ne_zero.mp tree.size.h_pos)
  simp only [prepare_layers, hparse, IntSize.fromWh_eq_none hz', if_true]

/-- Witness for `vector_zero_size_invalid` at a zero canvas width. -/
theorem vector_zero_size_invalid_witness :
    envSvgTree.svgParse [] = .ok treeOne ∧
      ((0 : Nat) = 0 ∨ (5 : Nat) = 0 ∨ treeOne.size.w = 0 ∨ treeOne.size.h = 0) ∧
      prepare_layers envSvgTree 0 5 ⟨[], some "image/svg+xml"⟩ = .err .InvalidSize :=
  ⟨rfl, Or.inl rfl, vector_zero_size_invalid envSvgTree 0 5 [] treeOne rfl (Or.inl rfl)⟩

/-- Claim C3: the final canvas is a left-fold in input order.  `canvas_0`
is the decoded base image itself (the source clones it, so in these value
semantics the base buffer is never mutated and the fold starts from its
value), and each step draws the next prepared layer over the accumulator
at the origin with `overlayAt0` — the embedding of
`imageops::overlay(acc, layer, 0, 0)`, whose per-pixel operation is the
source-over `Rgba::blend` — exactly once per layer.  The response body is
the JPEG encoding of that fold. -/
theorem create_document_left_fold (env : Env) (req : TransformRequest)
    (ct : String) (fmt : ImageFormat) (img : Image) (ps : List Image)
    (hct : req.image.contentType = some ct)
    (hfmt : ImageFormat.fromMimeType ct = some fmt)
    (hdec : env.decode fmt req.image.contents = .ok img)
    (hps : preparedAll env img.width img.height req.layers = .ok ps) :
    create_document env req =
      match env.jpegEncode (ps.foldl (overlayAt0 env) img) with
      | .ok bytes => .ok ⟨"image/jpeg", bytes⟩
      | .error _ => .err .EncodingFailure := by
  simp only [create_document, hct, hfmt, hdec,
    composeFold_ok env img.width img.height req.layers ps img hps]
  cases env.jpegEncode (List.foldl (overlayAt0 env) img ps) <;> rfl

/-- Witness for `create_document_left_fold`: one 2×2 layer over a 2×2 base
in `envOk`. -/
theorem create_document_left_fold_witness :
    preparedAll envOk imgOk2.width imgOk2.height [layerPng] = .ok [imgOk2] ∧
      create_document envOk ⟨layerPng, [layerPng]⟩ =
        match envOk.jpegEncode ([imgOk2].foldl (overlayAt0 envOk) imgOk2) with
        | .ok bytes => .ok ⟨"image/jpeg", bytes⟩
        | .error _ => .err .EncodingFailure :=
  ⟨rfl, create_document_left_fold envOk ⟨layerPng, [layerPng]⟩ "image/png" .png
    imgOk2 [imgOk2] rfl rfl rfl rfl⟩

/-- Claim C4: the first error anywhere aborts the whole request with that
error and no image bytes.  (1) If the base decode fails, the request
returns exactly that `DecodingFailure`, whatever the layer list is; (2) if
every layer before `bad` prepares successfully and `bad` fails with `e`,
the fold returns `e` — for every suffix `ls₂`, so no layer after the
failing one influences the outcome (none is decoded or composited). -/
theorem first_error_aborts (env : Env) :
    (∀ (base : FieldData) (ls : List FieldData) (ct : String)
        (fmt : ImageFormat) (e : ImageError),
        base.contentType = some ct → ImageFormat.fromMimeType ct = some fmt →
        env.decode fmt base.contents = .error e →
        create_document env ⟨base, ls⟩ = .err (.DecodingFailure e)) ∧
      (∀ (w h : Nat) (acc : Image) (ls₁ : List FieldData) (bad : FieldData)
        (ls₂ : List FieldData) (e : AppError) (ps : List Image),
        preparedAll env w h ls₁ = .ok ps →
        prepare_layers env w h bad = .err e →
        composeFold env w h acc (ls₁ ++ bad :: ls₂) = .err e) := by
  constructor
  · intro base ls ct fmt e hct hfmt hdec
    simp only [create_document, hct, hfmt, hdec]
  · intro w h acc ls₁ bad ls₂ e ps hps hbad
    rw [composeFold_append env w h ls₁ ps (bad :: ls₂) acc hps]
    simp only [composeFold, hbad]

/-- Witness for `first_error_aborts`: in `envDecFail` the base decode
fails, and a failing layer aborts a fold with an empty prefix. -/
theorem first_error_aborts_witness :
    create_document envDecFail ⟨layerPng, [layerPng]⟩ =
        .err (.DecodingFailure errC) ∧
      composeFold envDecFail 2 2 imgOk2 ([] ++ layerPng :: [layerPng]) =
        .err (.DecodingFailure errC) :=
  ⟨(first_error_aborts envDecFail).1 layerPng [layerPng] "image/png" .png errC
      rfl rfl rfl,
    (first_error_aborts envDecFail).2 2 2 imgOk2 [] layerPng [layerPng]
      (.DecodingFailure errC) [] rfl rfl⟩

/-- Rounding the exact quotient `(w * a) / w` returns `a` (`w > 0`). -/
theorem roundDiv_mul_self (a w : Nat) (hw : 0 < w) : roundDiv (w * a) w = a := by
  unfold roundDiv
  have h1 : 2 * (w * a) + w = w * (2 * a + 1) := by ring
  have h2 : 2 * w = w * 2 := by ring
  rw [h1, h2, Nat.mul_div_mul_left _ _ hw]
  omega

/-- Round-half-up of `x / w` stays below an integer bound on the exact
quotient: `x ≤ b * w` gives `roundDiv x w ≤ b` (`w > 0`). -/
theorem roundDiv_le (x w b : Nat) (hw : 0 < w) (hx : x ≤ b * w) :
    roundDiv x w ≤ b := by
  unfold roundDiv
  have hk : 0 < 2 * w := by omega
  rw [← Nat.lt_succ_iff, Nat.div_lt_iff_lt_mul hk, Nat.succ_eq_add_one]
  nlinarith

/-- The aspect-preserving fit computed by `resize_dimensions`: for positive
dimensions with a target inside the `u32` range, both result components are
bounded by the target and at least one equals it exactly. -/
theorem resizeDimensions_fit (iw ih w h : Nat) (hiw : 0 < iw) (hih : 0 < ih)
    (hw : 0 < w) (hh : 0 < h) (hwB : w ≤ u32Max) (hhB : h ≤ u32Max) :
    (resizeDimensions iw ih w h).1 ≤ w ∧ (resizeDimensions iw ih w h).2 ≤ h ∧
      ((resizeDimensions iw ih w h).1 = w ∨
        (resizeDimensions iw ih w h).2 = h) := by
  simp only [resizeDimensions]
  by_cases hc : w * ih ≤ h * iw
  · simp only [if_pos hc]
    rw [roundDiv_mul_self w iw hiw]
    have e2 : roundDiv (ih * w) iw ≤ h :=
      roundDiv_le (ih * w) iw h hiw (by rw [Nat.mul_comm ih w]; exact hc)
    rw [Nat.max_eq_left hw]
    have hmh : max (roundDiv (ih * w) iw) 1 ≤ h := Nat.max_le.mpr ⟨e2, hh⟩
    rw [if_neg (Nat.not_lt.mpr hwB), if_neg (Nat.not_lt.mpr (le_trans hmh hhB))]
    exact ⟨le_refl w, hmh, Or.inl rfl⟩
  · simp only [if_neg hc]
    rw [roundDiv_mul_self h ih hih]
    have hlt : h * iw < w * ih := Nat.lt_of_not_le hc
    have e2 : roundDiv (iw * h) ih ≤ w :=
      roundDiv_le (iw * h) ih w hih
        (by rw [Nat.mul_comm iw h]; exact Nat.le_of_lt hlt)
    rw [Nat.max_eq_left hh]
    have hmw : max (roundDiv (iw * h) ih) 1 ≤ w := Nat.max_le.mpr ⟨e2, hw⟩
    rw [if_neg (Nat.not_lt.mpr (le_trans hmw hwB)), if_neg (Nat.not_lt.mpr hhB)]
    exact ⟨hmw, le_refl h, Or.inr rfl⟩

/-- `DynamicImage::resize` toward `(w, h)` always lands inside the target
box with at least one exact side: either the dimensions already match and
the image is returned as is, or `resize_dimensions` fits it. -/
theorem resizeD_fit (env : Env) (img : Image) (w h : Nat)
    (hw : 0 < w) (hh : 0 < h) (hwB : w ≤ u32Max) (hhB : h ≤ u32Max)
    (hiw : 0 < img.width) (hih : 0 < img.height) :
    (resizeD env img w h).width ≤ w ∧ (resizeD env img w h).height ≤ h ∧
      ((resizeD env img w h).width = w ∨ (resizeD env img w h).height = h) := by
  unfold resizeD
  by_cases hEq : (w, h) = (img.width, img.height)
  · rw [if_pos hEq]
    have h1 : w = img.width := congrArg Prod.fst hEq
    have h2 : h = img.height := congrArg Prod.snd hEq
    exact ⟨h1 ▸ le_refl _, h2 ▸ le_refl _, Or.inl h1.symm⟩
  · rw [if_neg hEq]
    exact resizeDimensions_fit img.width img.height w h hiw hih hw hh hwB hhB

/-- Claim C1, amended: normalization does preserve aspect ratio
(`DynamicImage::resize`, not `resize_exact`), so an accepted layer —
raster-decoded or vector-rasterized — ends up with the aspect-preserving
fit of its decoded dimensions into the canvas box: width at most the
canvas width, height at most the canvas height, and at least one of the
two exactly equal; both equal the canvas only when the decoded aspect
ratio matches the canvas.  The decoded-dimension positivity hypothesis
reflects that raster decoders never produce an empty image. -/
theorem prepare_layers_fit (env : Env) (w h : Nat) (l : FieldData) (i : Image)
    (hw : 0 < w) (hh : 0 < h) (hwB : w ≤ u32Max) (hhB : h ≤ u32Max)
    (hpos : ∀ (fmt : ImageFormat) (bs : ByteSeq) (img : Image),
      env.decode fmt bs = .ok img → 0 < img.width ∧ 0 < img.height)
    (hok : prepare_layers env w h l = .ok i) :
    i.width ≤ w ∧ i.height ≤ h ∧ (i.width = w ∨ i.height = h) := by
  obtain ⟨bs, octype⟩ := l
  cases octype with
  | none => exact PResult.noConfusion hok
  | some ct =>
    simp only [prepare_layers] at hok
    by_cases hsvg : ct = "image/svg+xml"
    · rw [if_pos hsvg] at hok
      cases hp : env.svgParse bs with
      | error u => simp only [hp] at hok; exact PResult.noConfusion hok
      | ok tree =>
        simp only [hp] at hok
        cases hfw : IntSize.fromWh w h with
        | none => simp only [hfw] at hok; exact PResult.noConfusion hok
        | some target =>
          simp only [hfw] at hok
          cases hpm : Pixmap.new (env.scaleTo tree.size target).w
              (env.scaleTo tree.size target).h with
          | none => simp only [hpm] at hok; exact PResult.noConfusion hok
          | some pixmap =>
            simp only [hpm] at hok
            cases hpe : env.pngEncode (env.render tree
                ⟨(w : ℚ) / (tree.size.w : ℚ), (h : ℚ) / (tree.size.h : ℚ)⟩
                pixmap) with
            | error u => simp only [hpe] at hok; exact PResult.noConfusion hok
            | ok rgba =>
              simp only [hpe] at hok
              cases hd : env.decode .png rgba with
              | error e => simp only [hd] at hok; exact PResult.noConfusion hok
              | ok oimg =>
                simp only [hd] at hok
                cases hok
                obtain ⟨hpw, hph⟩ := hpos .png rgba oimg hd
                exact resizeD_fit env oimg w h hw hh hwB hhB hpw hph
    · rw [if_neg hsvg] at hok
      cases hfmt : ImageFormat.fromMimeType ct with
      | none => simp only [hfmt] at hok; exact PResult.noConfusion hok
      | some fmt =>
        simp only [hfmt] at hok
        cases hd : env.decode fmt bs with
        | error e => simp only [hd] at hok; exact PResult.noConfusion hok
        | ok oimg =>
          simp only [hd] at hok
          cases hok
          obtain ⟨hpw, hph⟩ := hpos fmt bs oimg hd
          exact resizeD_fit env oimg w h hw hh hwB hhB hpw hph

/-- Claim C1 as stated is false at a concrete input: in an environment
whose decoder yields the 50×25 image `img5025`, the accepted layer
normalized toward a 100×100 canvas has dimensions 100×50, not the canvas
dimensions — `DynamicImage::resize` preserved the aspect ratio. -/
theorem normalization_exact_cex :
    (prepare_layers envC1 100 100 layerPng).dims = some (100, 50) ∧
      (prepare_layers envC1 100 100 layerPng).dims ≠ some (100, 100) := by
  constructor
  · rfl
  · decide

/-- Witness for `prepare_layers_fit` at the same concrete input: the
accepted 100×50 buffer satisfies the amended bound with an exact width. -/
theorem prepare_layers_fit_witness :
    prepare_layers envC1 100 100 layerPng = .ok imgWide ∧
      (imgWide.width ≤ 100 ∧ imgWide.height ≤ 100 ∧
        (imgWide.width = 100 ∨ imgWide.height = 100)) :=
  ⟨by decide, prepare_layers_fit envC1 100 100 layerPng imgWide (by decide)
    (by decide) (by decide) (by decide)
    (by
      intro fmt bs img hdec
      have hq := Except.ok.inj hdec
      subst hq
      exact ⟨by decide, by decide⟩)
    (by decide)⟩
